import Mathlib

/-!
Verification of the openscreen export core against its specification.

Part 1 models the Transform Engine (`applyZoomTransform`): a pure geometric
function over rational coordinates.  The mutations the source performs on the
sprite, mask graphics and blur filter are modelled as a returned
`TransformEffects` record; the early-return (no mutation) path is modelled as
`none`.

Part 2 models the export pipeline (`VideoExporter`): a small-step state
machine.  The orchestrator loop, the encoder output/error callbacks, the
cooperative cancellation and the finalization sequence become events of a
step function on an explicit exporter state.
-/

/- ## Part 1: Transform Engine -/

structure Vec2 where
  x : ℚ
  y : ℚ
deriving DecidableEq

structure Size2 where
  width : ℚ
  height : ℚ
deriving DecidableEq

structure MaskRect where
  x : ℚ
  y : ℚ
  width : ℚ
  height : ℚ
deriving DecidableEq

/-- The parameters of `applyZoomTransform`.  The `videoSprite`, `maskGraphics`
and `blurFilter` objects are mutation targets, not data; only the presence of
the nullable blur filter matters, kept as `hasBlurFilter`. -/
structure TransformParams where
  hasBlurFilter : Bool
  stageSize : Size2
  videoSize : Size2
  baseScale : ℚ
  baseOffset : Vec2
  baseMask : MaskRect
  cropOffset : Vec2
  zoomScale : ℚ
  focusX : ℚ
  focusY : ℚ
  motionIntensity : ℚ
  isPlaying : Bool
deriving DecidableEq

/-- The state the source writes: sprite scale and position, blur amount
(`none` when there is no blur filter), and the mask rounded rectangle. -/
structure TransformEffects where
  scale : ℚ
  posX : ℚ
  posY : ℚ
  blur : Option ℚ
  maskX : ℚ
  maskY : ℚ
  maskWidth : ℚ
  maskHeight : ℚ
  maskRadius : ℚ
deriving DecidableEq

def focusStagePxX (p : TransformParams) : ℚ :=
  p.baseMask.x + p.focusX * p.stageSize.width

def focusStagePxY (p : TransformParams) : ℚ :=
  p.baseMask.y + p.focusY * p.stageSize.height

def stageCenterX (p : TransformParams) : ℚ :=
  p.baseMask.x + p.stageSize.width / 2

def stageCenterY (p : TransformParams) : ℚ :=
  p.baseMask.y + p.stageSize.height / 2

def actualScale (p : TransformParams) : ℚ :=
  p.baseScale * p.zoomScale

def focusInVideoSpaceX (p : TransformParams) : ℚ :=
  focusStagePxX p - p.baseOffset.x

def focusInVideoSpaceY (p : TransformParams) : ℚ :=
  focusStagePxY p - p.baseOffset.y

/-- The pre-clamp position candidate on the x axis
(`newVideoX` right after the position formula line). -/
def newVideoX0 (p : TransformParams) : ℚ :=
  stageCenterX p - focusInVideoSpaceX p * p.zoomScale

/-- The pre-clamp position candidate on the y axis. -/
def newVideoY0 (p : TransformParams) : ℚ :=
  stageCenterY p - focusInVideoSpaceY p * p.zoomScale

def cropEndX (p : TransformParams) : ℚ := p.cropOffset.x + p.videoSize.width

def cropEndY (p : TransformParams) : ℚ := p.cropOffset.y + p.videoSize.height

def minVideoX (p : TransformParams) : ℚ :=
  p.baseMask.x + p.baseMask.width - cropEndX p * actualScale p

def maxVideoX (p : TransformParams) : ℚ :=
  p.baseMask.x - p.cropOffset.x * actualScale p

def minVideoY (p : TransformParams) : ℚ :=
  p.baseMask.y + p.baseMask.height - cropEndY p * actualScale p

def maxVideoY (p : TransformParams) : ℚ :=
  p.baseMask.y - p.cropOffset.y * actualScale p

/-- The position on the x axis after the conditional clamp. -/
def clampedVideoX (p : TransformParams) : ℚ :=
  if minVideoX p ≤ maxVideoX p then
    max (minVideoX p) (min (maxVideoX p) (newVideoX0 p))
  else newVideoX0 p

/-- The position on the y axis after the conditional clamp. -/
def clampedVideoY (p : TransformParams) : ℚ :=
  if minVideoY p ≤ maxVideoY p then
    max (minVideoY p) (min (maxVideoY p) (newVideoY0 p))
  else newVideoY0 p

/-- Motion blur amount: active only while playing with intensity above
`0.0005`; magnitude capped at `6`. -/
def motionBlur (p : TransformParams) : ℚ :=
  if p.isPlaying ∧ 1 / 2000 < p.motionIntensity then
    min 6 (p.motionIntensity * 120)
  else 0

/-- Mask corner radius: `0.02 * min(maskWidth, maskHeight)`. -/
def maskCornerRadius (p : TransformParams) : ℚ :=
  min p.baseMask.width p.baseMask.height * (1 / 50)

/-- Shallow embedding of `applyZoomTransform`.  The guard mirrors the
source's early return: JavaScript `!x` on a number catches exactly `0`
for the stage and video dimensions, while `baseScale` and the mask
dimensions are compared with `<= 0`.  The early return produces `none`
(no mutation of any target object). -/
def applyZoomTransform (p : TransformParams) : Option TransformEffects :=
  if p.stageSize.width = 0 ∨ p.stageSize.height = 0 ∨
     p.videoSize.width = 0 ∨ p.videoSize.height = 0 ∨
     p.baseScale ≤ 0 ∨ p.baseMask.width ≤ 0 ∨ p.baseMask.height ≤ 0 then
    none
  else
    some
      { scale := actualScale p
        posX := clampedVideoX p
        posY := clampedVideoY p
        blur := if p.hasBlurFilter then some (motionBlur p) else none
        maskX := p.baseMask.x
        maskY := p.baseMask.y
        maskWidth := p.baseMask.width
        maskHeight := p.baseMask.height
        maskRadius := maskCornerRadius p }

/-- The spec's notion of a valid (non-degenerate) `StageGeometry`: all
required dimensions strictly positive. -/
def NondegenerateSpec (p : TransformParams) : Prop :=
  0 < p.stageSize.width ∧ 0 < p.stageSize.height ∧
  0 < p.videoSize.width ∧ 0 < p.videoSize.height ∧
  0 < p.baseScale ∧ 0 < p.baseMask.width ∧ 0 < p.baseMask.height

instance (p : TransformParams) : Decidable (NondegenerateSpec p) := by
  unfold NondegenerateSpec; infer_instance

/-- Second definition for the refinement claim, following the spec's words:
the focus point in stage pixel space, `focusPx = baseMask.origin + focus * stageSize`. -/
def spec_focusPxX (p : TransformParams) : ℚ :=
  p.baseMask.x + p.focusX * p.stageSize.width

def spec_focusPxY (p : TransformParams) : ℚ :=
  p.baseMask.y + p.focusY * p.stageSize.height

/-- Spec's words: the stage's center in pixel space,
`center = baseMask.origin + stageSize / 2`. -/
def spec_stageCenterX (p : TransformParams) : ℚ :=
  p.baseMask.x + p.stageSize.width / 2

def spec_stageCenterY (p : TransformParams) : ℚ :=
  p.baseMask.y + p.stageSize.height / 2

/-- The mask's visual center on the x axis (spec vocabulary for the identity
claim). -/
def maskCenterX (p : TransformParams) : ℚ :=
  p.baseMask.x + p.baseMask.width / 2

def maskCenterY (p : TransformParams) : ℚ :=
  p.baseMask.y + p.baseMask.height / 2

/-- The center of the cropped video region in stage coordinates, when the
sprite sits at position `x`: the crop region spans texture coordinates
`cropOffset .. cropOffset + videoSize`, scaled by `actualScale`. -/
def videoCenterX (p : TransformParams) (x : ℚ) : ℚ :=
  x + (p.cropOffset.x + p.videoSize.width / 2) * actualScale p

def videoCenterY (p : TransformParams) (y : ℚ) : ℚ :=
  y + (p.cropOffset.y + p.videoSize.height / 2) * actualScale p

/-- A nondegenerate geometry passes the source's guard. -/
theorem applyZoomTransform_eq_some (p : TransformParams) (h : NondegenerateSpec p) :
    applyZoomTransform p =
      some
        { scale := actualScale p
          posX := clampedVideoX p
          posY := clampedVideoY p
          blur := if p.hasBlurFilter then some (motionBlur p) else none
          maskX := p.baseMask.x
          maskY := p.baseMask.y
          maskWidth := p.baseMask.width
          maskHeight := p.baseMask.height
          maskRadius := maskCornerRadius p } := by
  obtain ⟨h1, h2, h3, h4, h5, h6, h7⟩ := h
  unfold applyZoomTransform
  rw [if_neg]
  push_neg
  exact ⟨ne_of_gt h1, ne_of_gt h2, ne_of_gt h3, ne_of_gt h4, h5, h6, h7⟩

/- ## Part 2: VideoExporter pipeline -/

/-- Color-space tags as written into container metadata. -/
structure ColorSpaceInit where
  primaries : String
  transfer : String
  matrix : String
  fullRange : Bool
deriving DecidableEq

/-- The fixed fallback color space the source synthesizes when the encoder
reported none. -/
def defaultColorSpace : ColorSpaceInit :=
  { primaries := "bt709", transfer := "iec61966-2-1", matrix := "rgb", fullRange := true }

/-- The `decoderConfig` part of encoder-emitted chunk metadata:
optional description bytes and optional color space. -/
structure EncoderMetaConfig where
  description : Option (List Nat)
  colorSpace : Option ColorSpaceInit
deriving DecidableEq

/-- Chunk metadata as received by the encoder output callback:
`none` when `meta?.decoderConfig` is absent. -/
abbrev EncoderMeta := Option EncoderMetaConfig

/-- The decoder configuration the source synthesizes for the first chunk. -/
structure DecoderConfigRec where
  codec : String
  codedWidth : Nat
  codedHeight : Nat
  description : List Nat
  colorSpace : ColorSpaceInit
deriving DecidableEq

/-- The metadata handed to `muxer.addVideoChunk` for one chunk: either the
synthesized first-chunk decoder configuration, or the encoder-supplied
metadata forwarded unchanged. -/
inductive MuxChunkMeta where
  | synth (cfg : DecoderConfigRec)
  | fwd (meta : EncoderMeta)
deriving DecidableEq

/-- Whether the chunk record handed to the muxer carries a decoder
configuration. -/
def carriesDecoderConfig : MuxChunkMeta → Bool
  | MuxChunkMeta.synth _ => true
  | MuxChunkMeta.fwd m => m.isSome

/-- The export configuration fields the modelled claims depend on. -/
structure ExportCfg where
  width : Nat
  height : Nat
  codec : Option String
deriving DecidableEq

/-- Terminal export outcome (`blob` payload omitted). -/
structure ExportRes where
  success : Bool
  error : Option String
deriving DecidableEq

def cancelledResult : ExportRes := { success := false, error := some "Export cancelled" }

def successResult : ExportRes := { success := true, error := none }

/-- Program counter of the orchestrator's single logical thread. -/
inductive PC where
  | top        -- at the while-condition of the frame loop
  | ready      -- frame seeked and composited, at the backpressure wait
  | flushing   -- awaiting encoder.flush()
  | draining   -- awaiting Promise.all(muxingPromises)
  | finalizing -- invoking muxer.finalize()
  | finished   -- export() returned
deriving DecidableEq

/-- Exporter state.  Fields mirror the class fields of `VideoExporter`
(`cancelled`, `encodeQueue`, `chunkCount`, `videoDescription`,
`videoColorSpace`, the muxing-promise list) plus the loop variables and
ghost observations: `pending` (submitted-but-not-yet-emitted encodes inside
the encoder), `pendingMux` (unsettled addVideoChunk promises), `submitted`
(number of encode() calls), `progressed` (number of progress reports),
`finalizeCount` (number of muxer.finalize() invocations) and `result`. -/
structure ExporterState where
  pc : PC
  cancelled : Bool
  encoderConfigured : Bool
  encodeQueue : Int
  pending : Nat
  chunkCount : Nat
  videoDescription : Option (List Nat)
  videoColorSpace : Option ColorSpaceInit
  muxRecords : List MuxChunkMeta
  pendingMux : Nat
  frameIndex : Nat
  totalFrames : Nat
  submitted : Nat
  progressed : Nat
  finalizeCount : Nat
  result : Option ExportRes
deriving DecidableEq

/-- State at loop entry, right after the encoder was configured and the
counters were reset by `initializeEncoder` for a run of `total` frames. -/
def initExporter (total : Nat) : ExporterState :=
  { pc := PC.top
    cancelled := false
    encoderConfigured := true
    encodeQueue := 0
    pending := 0
    chunkCount := 0
    videoDescription := none
    videoColorSpace := none
    muxRecords := []
    pendingMux := 0
    frameIndex := 0
    totalFrames := total
    submitted := 0
    progressed := 0
    finalizeCount := 0
    result := none }

def MAX_ENCODE_QUEUE : Int := 120

/-- Capture-once semantics of
`if (incoming && !current) current = incoming`. -/
def captureOnce {α : Type} (incoming : Option α) (cur : Option α) : Option α :=
  match cur with
  | some c => some c
  | none => incoming

/-- The encoder output callback: captures description/color-space metadata
once, decides whether this is the first chunk, synthesizes the decoder
configuration for the first chunk when a description is available (falling
back to `defaultColorSpace` when no color space was captured), otherwise
forwards the encoder metadata unchanged; pushes the muxing promise and
decrements the in-flight counter. -/
def outputCallback (cfg : ExportCfg) (meta : EncoderMeta) (s : ExporterState) : ExporterState :=
  let vd := captureOnce (meta.bind (fun mc => mc.description)) s.videoDescription
  let vcs := captureOnce (meta.bind (fun mc => mc.colorSpace)) s.videoColorSpace
  let entry :=
    if s.chunkCount = 0 then
      match vd with
      | some d =>
          MuxChunkMeta.synth
            { codec := cfg.codec.getD "avc1.64001f"
              codedWidth := cfg.width
              codedHeight := cfg.height
              description := d
              colorSpace := vcs.getD defaultColorSpace }
      | none => MuxChunkMeta.fwd meta
    else MuxChunkMeta.fwd meta
  { s with
    videoDescription := vd
    videoColorSpace := vcs
    chunkCount := s.chunkCount + 1
    muxRecords := s.muxRecords ++ [entry]
    pendingMux := s.pendingMux + 1
    encodeQueue := s.encodeQueue - 1 }

/-- Folding the output callback over a list of emissions (used to state the
first-chunk-metadata claim). -/
def processEmissions (cfg : ExportCfg) (ms : List EncoderMeta) (s : ExporterState) : ExporterState :=
  ms.foldl (fun st m => outputCallback cfg m st) s

/-- The record the first observed chunk is handed to the muxer with. -/
def firstChunkRecord (cfg : ExportCfg) (m0 : EncoderMeta) : MuxChunkMeta :=
  match m0 with
  | some mc =>
      match mc.description with
      | some d =>
          MuxChunkMeta.synth
            { codec := cfg.codec.getD "avc1.64001f"
              codedWidth := cfg.width
              codedHeight := cfg.height
              description := d
              colorSpace := mc.colorSpace.getD defaultColorSpace }
      | none => MuxChunkMeta.fwd m0
  | none => MuxChunkMeta.fwd m0

/-- Events of the pipeline.  Loop-body work is split at the suspension
points the source has; encoder callbacks, promise settlements and
cancellation requests interleave freely with the orchestrator. -/
inductive Event where
  | enterLoop           -- evaluate the while-condition
  | spinWait            -- one yield of the backpressure busy-wait
  | submitStep          -- the guarded encode submission + progress report
  | emit (m : EncoderMeta) -- encoder output callback fires
  | encodeError         -- encoder error callback fires
  | encoderClosed       -- the encoder leaves the configured state
  | muxSettle           -- one addVideoChunk promise settles
  | cancelReq           -- cancel(): flag + eager cleanup
  | flushDone           -- encoder flush resolves (or is skipped)
  | drainDone           -- Promise.all over muxing promises resolves
  | finalizeDone        -- muxer.finalize() resolves

/-- One step of the pipeline: `none` when the event cannot fire in this
state. -/
def stepF (cfg : ExportCfg) : Event → ExporterState → Option ExporterState
  | Event.enterLoop, s =>
      if s.pc = PC.top then
        if s.frameIndex < s.totalFrames ∧ s.cancelled = false then
          some { s with pc := PC.ready }
        else if s.cancelled = true then
          some { s with pc := PC.finished, result := some cancelledResult }
        else
          some { s with pc := PC.flushing }
      else none
  | Event.spinWait, s =>
      if s.pc = PC.ready ∧ MAX_ENCODE_QUEUE ≤ s.encodeQueue ∧ s.cancelled = false then
        some s
      else none
  | Event.submitStep, s =>
      if s.pc = PC.ready ∧ (s.encodeQueue < MAX_ENCODE_QUEUE ∨ s.cancelled = true) then
        let s1 :=
          if s.encoderConfigured then
            { s with
              encodeQueue := s.encodeQueue + 1
              pending := s.pending + 1
              submitted := s.submitted + 1 }
          else s
        some { s1 with
          frameIndex := s1.frameIndex + 1
          progressed := s1.progressed + 1
          pc := PC.top }
      else none
  | Event.emit m, s =>
      if s.encoderConfigured = true ∧ 0 < s.pending then
        some { outputCallback cfg m s with pending := s.pending - 1 }
      else none
  | Event.encodeError, s => some s
  | Event.encoderClosed, s =>
      if s.encoderConfigured = true then
        some { s with encoderConfigured := false }
      else none
  | Event.muxSettle, s =>
      if 0 < s.pendingMux then some { s with pendingMux := s.pendingMux - 1 } else none
  | Event.cancelReq, s =>
      some { s with
        cancelled := true
        encoderConfigured := false
        encodeQueue := 0
        chunkCount := 0
        videoDescription := none
        videoColorSpace := none
        muxRecords := [] }
  | Event.flushDone, s =>
      if s.pc = PC.flushing ∧ (s.encoderConfigured = false ∨ s.pending = 0) then
        some { s with pc := PC.draining }
      else none
  | Event.drainDone, s =>
      if s.pc = PC.draining ∧ s.pendingMux = 0 then
        some { s with pc := PC.finalizing }
      else none
  | Event.finalizeDone, s =>
      if s.pc = PC.finalizing then
        some { s with
          pc := PC.finished
          finalizeCount := s.finalizeCount + 1
          result := some successResult }
      else none

/-- Run a list of events from a state. -/
def runEv (cfg : ExportCfg) : List Event → ExporterState → Option ExporterState
  | [], s => some s
  | e :: es, s =>
      match stepF cfg e s with
      | some s' => runEv cfg es s'
      | none => none

/-- States reachable from a given state by admissible event sequences. -/
inductive Reachable (cfg : ExportCfg) (init : ExporterState) : ExporterState → Prop
  | refl : Reachable cfg init init
  | step {s s' : ExporterState} (e : Event) (h : Reachable cfg init s)
      (hs : stepF cfg e s = some s') : Reachable cfg init s'

/-- Master invariant of the pipeline:
cancellation implies the encoder was closed by the eager cleanup; the
in-flight encode counter never exceeds the queue bound; `finalize()` runs at
most once, only from the finalizing phase, which is entered only with every
muxing promise settled and the encoder drained (or closed). -/
def MInv (s : ExporterState) : Prop :=
  (s.cancelled = true → s.encoderConfigured = false) ∧
  s.encodeQueue ≤ MAX_ENCODE_QUEUE ∧
  s.finalizeCount ≤ 1 ∧
  (s.pc ≠ PC.finished → s.finalizeCount = 0) ∧
  (s.result = some successResult → s.finalizeCount = 1) ∧
  ((s.pc = PC.draining ∨ s.pc = PC.finalizing) → (s.encoderConfigured = false ∨ s.pending = 0)) ∧
  (s.pc = PC.finalizing → s.pendingMux = 0)

theorem minv_init (t : Nat) : MInv (initExporter t) := by
  refine ⟨?_, ?_, ?_, ?_, ?_, ?_, ?_⟩ <;> simp [initExporter, MAX_ENCODE_QUEUE]

theorem stepF_minv {cfg : ExportCfg} {e : Event} {s s' : ExporterState}
    (h : MInv s) (hs : stepF cfg e s = some s') : MInv s' := by
  obtain ⟨h1, h2, h3, h4, h5, h6, h7⟩ := h
  cases e with
  | enterLoop =>
      simp only [stepF] at hs
      split at hs
      · split at hs
        · cases hs
          exact ⟨h1, h2, h3, fun _ => h4 (by simp_all), h5, by simp, by simp⟩
        · split at hs
          · cases hs
            refine ⟨h1, h2, h3, by simp, ?_, by simp, by simp⟩
            intro hres
            simp only [Option.some.injEq] at hres
            exact absurd hres (by decide)
          · cases hs
            exact ⟨h1, h2, h3, fun _ => h4 (by simp_all), h5, by simp, by simp⟩
      · cases hs
  | spinWait =>
      simp only [stepF] at hs
      split at hs
      · cases hs; exact ⟨h1, h2, h3, h4, h5, h6, h7⟩
      · cases hs
  | submitStep =>
      simp only [stepF] at hs
      split at hs
      · rename_i hg
        obtain ⟨hpc, hq⟩ := hg
        split at hs
        · rename_i hconf
          cases hs
          have hqlt : s.encodeQueue < MAX_ENCODE_QUEUE := by
            rcases hq with hq | hcanc
            · exact hq
            · exact absurd (h1 hcanc) (by simp [hconf])
          refine ⟨h1, ?_, h3, ?_, h5, by simp, by simp⟩
          · show s.encodeQueue + 1 ≤ MAX_ENCODE_QUEUE
            omega
          · intro _; exact h4 (by simp [hpc])
        · cases hs
          refine ⟨h1, h2, h3, ?_, h5, by simp, by simp⟩
          intro _; exact h4 (by simp [hpc])
      · cases hs
  | emit m =>
      simp only [stepF] at hs
      split at hs
      · rename_i hg
        obtain ⟨hconf, hpend⟩ := hg
        cases hs
        refine ⟨?_, ?_, h3, h4, h5, ?_, ?_⟩
        · intro hc; exact h1 hc
        · show s.encodeQueue - 1 ≤ MAX_ENCODE_QUEUE
          omega
        · intro hpc
          rcases h6 hpc with hcf | hp0
          · exact absurd hconf (by simp [hcf])
          · exact absurd hp0 (by omega)
        · intro hpc
          rcases h6 (Or.inr hpc) with hcf | hp0
          · exact absurd hconf (by simp [hcf])
          · exact absurd hp0 (by omega)
      · cases hs
  | encodeError =>
      simp only [stepF] at hs
      cases hs
      exact ⟨h1, h2, h3, h4, h5, h6, h7⟩
  | encoderClosed =>
      simp only [stepF] at hs
      split at hs
      · cases hs
        exact ⟨fun _ => rfl, h2, h3, h4, h5, fun _ => Or.inl rfl, h7⟩
      · cases hs
  | muxSettle =>
      simp only [stepF] at hs
      split at hs
      · rename_i hg
        cases hs
        refine ⟨h1, h2, h3, h4, h5, h6, ?_⟩
        intro hpc
        have := h7 hpc
        show s.pendingMux - 1 = 0
        omega
      · cases hs
  | cancelReq =>
      simp only [stepF] at hs
      cases hs
      refine ⟨fun _ => rfl, by simp [MAX_ENCODE_QUEUE], h3, h4, h5, fun _ => Or.inl rfl, h7⟩
  | flushDone =>
      simp only [stepF] at hs
      split at hs
      · rename_i hg
        cases hs
        exact ⟨h1, h2, h3, fun _ => h4 (by simp [hg.1]), h5, fun _ => hg.2, by simp⟩
      · cases hs
  | drainDone =>
      simp only [stepF] at hs
      split at hs
      · rename_i hg
        cases hs
        exact ⟨h1, h2, h3, fun _ => h4 (by simp [hg.1]), h5,
          fun _ => h6 (Or.inl hg.1), fun _ => hg.2⟩
      · cases hs
  | finalizeDone =>
      simp only [stepF] at hs
      split at hs
      · rename_i hg
        cases hs
        have hz : s.finalizeCount = 0 := h4 (by simp [hg])
        refine ⟨h1, h2, ?_, by simp, fun _ => ?_, by simp, by simp⟩
        · show s.finalizeCount + 1 ≤ 1
          omega
        · show s.finalizeCount + 1 = 1
          omega
      · cases hs

theorem reachable_minv {cfg : ExportCfg} {init s : ExporterState}
    (h0 : MInv init) (h : Reachable cfg init s) : MInv s := by
  induction h with
  | refl => exact h0
  | step e h hs ih => exact stepF_minv ih hs

theorem runEv_reachable_aux (cfg : ExportCfg) (init : ExporterState) :
    ∀ (es : List Event) (s s' : ExporterState),
      Reachable cfg init s → runEv cfg es s = some s' → Reachable cfg init s' := by
  intro es
  induction es with
  | nil =>
      intro s s' h hr
      simp only [runEv, Option.some.injEq] at hr
      exact hr ▸ h
  | cons e es ih =>
      intro s s' h hr
      simp only [runEv] at hr
      cases hstep : stepF cfg e s with
      | none => rw [hstep] at hr; cases hr
      | some s1 =>
          rw [hstep] at hr
          exact ih s1 s' (Reachable.step e h hstep) hr

theorem runEv_reachable (cfg : ExportCfg) (init : ExporterState) (es : List Event)
    (s : ExporterState) (h : runEv cfg es init = some s) : Reachable cfg init s :=
  runEv_reachable_aux cfg init es init s Reachable.refl h

/-- After the first chunk, the output callback always forwards the encoder
metadata unchanged. -/
theorem outputCallback_not_first (cfg : ExportCfg) (m : EncoderMeta) (s : ExporterState)
    (h : s.chunkCount ≠ 0) :
    (outputCallback cfg m s).muxRecords = s.muxRecords ++ [MuxChunkMeta.fwd m] ∧
    (outputCallback cfg m s).chunkCount = s.chunkCount + 1 := by
  unfold outputCallback
  simp [h]

theorem processEmissions_not_first (cfg : ExportCfg) (ms : List EncoderMeta) :
    ∀ s : ExporterState, s.chunkCount ≠ 0 →
      (processEmissions cfg ms s).muxRecords = s.muxRecords ++ ms.map MuxChunkMeta.fwd := by
  induction ms with
  | nil => intro s _; simp [processEmissions]
  | cons m rest ih =>
      intro s h
      have hstep := outputCallback_not_first cfg m s h
      have : processEmissions cfg (m :: rest) s =
          processEmissions cfg rest (outputCallback cfg m s) := by
        simp [processEmissions]
      rw [this, ih (outputCallback cfg m s) (by rw [hstep.2]; omega), hstep.1]
      simp


/-- A conditional clamp leaves a value unchanged when the value is inside
the clamp interval whenever the interval is non-empty. -/
theorem clamp_fixed {mn mx b : ℚ} (hb1 : mn ≤ mx → mn ≤ b) (hb2 : mn ≤ mx → b ≤ mx) :
    (if mn ≤ mx then max mn (min mx b) else b) = b := by
  split
  · rename_i hle
    rw [min_eq_right (hb2 hle), max_eq_right (hb1 hle)]
  · rfl

/-- A baseline that centers the video span inside the mask span lies inside
the clamp interval whenever that interval is non-empty (one axis, raw
rationals: mask at `mX` of size `mW`, crop from `cx` spanning `vw`, scale `S`). -/
theorem centered_in_bounds {mX mW cx vw S b : ℚ}
    (hb : b = mX + mW / 2 - (cx + vw / 2) * S)
    (hle : mX + mW - (cx + vw) * S ≤ mX - cx * S) :
    mX + mW - (cx + vw) * S ≤ b ∧ b ≤ mX - cx * S := by
  subst hb
  constructor <;> nlinarith [hle]

/-- C5 (amended): for every input where a stage or video dimension is zero,
or baseScale or a baseMask dimension is non-positive, applyZoomTransform is
a no-op: it returns early without raising and without mutating the sprite
scale/position, the mask graphics, or the blur filter. -/
theorem degenerate_noop (p : TransformParams)
    (h : p.stageSize.width = 0 ∨ p.stageSize.height = 0 ∨ p.videoSize.width = 0 ∨
         p.videoSize.height = 0 ∨ p.baseScale ≤ 0 ∨ p.baseMask.width ≤ 0 ∨
         p.baseMask.height ≤ 0) :
    applyZoomTransform p = none := by
  unfold applyZoomTransform
  rw [if_pos h]

/-- Centered-baseline geometry: 100×100 stage and mask, 200×100 video at
scale 1, baseline offset centering the crop region on the mask center. -/
def pCentered : TransformParams :=
  { hasBlurFilter := false
    stageSize := { width := 100, height := 100 }
    videoSize := { width := 200, height := 100 }
    baseScale := 1
    baseOffset := { x := -50, y := 0 }
    baseMask := { x := 0, y := 0, width := 100, height := 100 }
    cropOffset := { x := 0, y := 0 }
    zoomScale := 1
    focusX := 1 / 2
    focusY := 1 / 2
    motionIntensity := 0
    isPlaying := false }

/-- The effects applyZoomTransform produces on `pCentered`. -/
def effCentered : TransformEffects :=
  { scale := 1, posX := -50, posY := 0, blur := none,
    maskX := 0, maskY := 0, maskWidth := 100, maskHeight := 100, maskRadius := 2 }

theorem applyZoom_pCentered : applyZoomTransform pCentered = some effCentered := by
  rw [applyZoomTransform_eq_some pCentered (by norm_num [NondegenerateSpec, pCentered])]
  unfold effCentered
  norm_num [actualScale, clampedVideoX, clampedVideoY, newVideoX0, newVideoY0,
    focusInVideoSpaceX, focusInVideoSpaceY, focusStagePxX, focusStagePxY,
    stageCenterX, stageCenterY, minVideoX, maxVideoX, minVideoY, maxVideoY,
    cropEndX, cropEndY, maskCornerRadius, min_def, max_def, pCentered]

/-- Witness geometry for C5: a zero stage width. -/
def pZeroStage : TransformParams :=
  { pCentered with stageSize := { width := 0, height := 100 } }

theorem degenerate_noop_witness : applyZoomTransform pZeroStage = none :=
  degenerate_noop pZeroStage (Or.inl (by norm_num [pZeroStage]))

/-- Counterexample for C5 as stated: a negative stage width is non-positive,
yet the transform does not no-op (the JavaScript falsiness guard only
catches zero), so the sprite and mask are mutated. -/
def pNegStage : TransformParams :=
  { pCentered with stageSize := { width := -1, height := 100 } }

theorem degenerate_guard_counterexample :
    pNegStage.stageSize.width ≤ 0 ∧ (applyZoomTransform pNegStage).isSome = true := by
  constructor
  · norm_num [pNegStage]
  · unfold applyZoomTransform
    rw [if_neg]
    · rfl
    · push_neg
      norm_num [pNegStage, pCentered]

/-- C6: for every non-degenerate geometry, the unclamped camera position
computed by applyZoomTransform equals stageCenter − (focusPx − baseOffset) ·
zoomScale on each axis, with focusPx = baseMask.origin + focus · stageSize
and stageCenter = baseMask.origin + stageSize / 2: the focus offset in
unscaled video space is multiplied by zoomScale only, not by actualScale. -/
theorem unclamped_position_formula (p : TransformParams) (hnd : NondegenerateSpec p) :
    newVideoX0 p =
      spec_stageCenterX p - (spec_focusPxX p - p.baseOffset.x) * p.zoomScale ∧
    newVideoY0 p =
      spec_stageCenterY p - (spec_focusPxY p - p.baseOffset.y) * p.zoomScale :=
  ⟨rfl, rfl⟩

theorem unclamped_position_formula_witness :
    newVideoX0 pCentered =
      spec_stageCenterX pCentered -
        (spec_focusPxX pCentered - pCentered.baseOffset.x) * pCentered.zoomScale ∧
    newVideoY0 pCentered =
      spec_stageCenterY pCentered -
        (spec_focusPxY pCentered - pCentered.baseOffset.y) * pCentered.zoomScale :=
  unclamped_position_formula pCentered (by norm_num [NondegenerateSpec, pCentered])

/-- C7: for every non-degenerate input and each axis independently, when
min > max the position set by applyZoomTransform equals the unclamped
candidate, and otherwise it lies within the closed interval [min, max]. -/
theorem clamp_behavior (p : TransformParams) (eff : TransformEffects)
    (hnd : NondegenerateSpec p) (h : applyZoomTransform p = some eff) :
    (maxVideoX p < minVideoX p → eff.posX = newVideoX0 p) ∧
    (minVideoX p ≤ maxVideoX p → minVideoX p ≤ eff.posX ∧ eff.posX ≤ maxVideoX p) ∧
    (maxVideoY p < minVideoY p → eff.posY = newVideoY0 p) ∧
    (minVideoY p ≤ maxVideoY p → minVideoY p ≤ eff.posY ∧ eff.posY ≤ maxVideoY p) := by
  rw [applyZoomTransform_eq_some p hnd] at h
  injection h with h
  subst h
  refine ⟨?_, ?_, ?_, ?_⟩
  · intro hlt
    show clampedVideoX p = newVideoX0 p
    unfold clampedVideoX
    rw [if_neg (not_le.mpr hlt)]
  · intro hle
    constructor
    · show minVideoX p ≤ clampedVideoX p
      unfold clampedVideoX
      rw [if_pos hle]
      exact le_max_left _ _
    · show clampedVideoX p ≤ maxVideoX p
      unfold clampedVideoX
      rw [if_pos hle]
      exact max_le hle (min_le_left _ _)
  · intro hlt
    show clampedVideoY p = newVideoY0 p
    unfold clampedVideoY
    rw [if_neg (not_le.mpr hlt)]
  · intro hle
    constructor
    · show minVideoY p ≤ clampedVideoY p
      unfold clampedVideoY
      rw [if_pos hle]
      exact le_max_left _ _
    · show clampedVideoY p ≤ maxVideoY p
      unfold clampedVideoY
      rw [if_pos hle]
      exact max_le hle (min_le_left _ _)

theorem clamp_behavior_witness :
    minVideoX pCentered ≤ effCentered.posX ∧ effCentered.posX ≤ maxVideoX pCentered :=
  (clamp_behavior pCentered effCentered (by norm_num [NondegenerateSpec, pCentered])
      applyZoom_pCentered).2.1
    (by norm_num [minVideoX, maxVideoX, cropEndX, actualScale, pCentered])

/-- C9 (amended): for every non-degenerate geometry whose baseline offset
centers the cropped video on the mask center, the transform at zoomScale 1
and focus (1/2, 1/2) leaves the position at the baseline offset, keeping
the video's own center aligned with the mask's center. -/
theorem zoom_identity_centered (p : TransformParams) (eff : TransformEffects)
    (hnd : NondegenerateSpec p)
    (hz : p.zoomScale = 1) (hfx : p.focusX = 1 / 2) (hfy : p.focusY = 1 / 2)
    (hcx : p.baseOffset.x =
      maskCenterX p - (p.cropOffset.x + p.videoSize.width / 2) * p.baseScale)
    (hcy : p.baseOffset.y =
      maskCenterY p - (p.cropOffset.y + p.videoSize.height / 2) * p.baseScale)
    (h : applyZoomTransform p = some eff) :
    eff.posX = p.baseOffset.x ∧ eff.posY = p.baseOffset.y ∧
    videoCenterX p eff.posX = maskCenterX p ∧ videoCenterY p eff.posY = maskCenterY p := by
  rw [applyZoomTransform_eq_some p hnd] at h
  injection h with h
  subst h
  have hS : actualScale p = p.baseScale := by unfold actualScale; rw [hz, mul_one]
  have hx0 : newVideoX0 p = p.baseOffset.x := by
    unfold newVideoX0 focusInVideoSpaceX focusStagePxX stageCenterX
    rw [hz, hfx]; ring
  have hy0 : newVideoY0 p = p.baseOffset.y := by
    unfold newVideoY0 focusInVideoSpaceY focusStagePxY stageCenterY
    rw [hz, hfy]; ring
  have hcx' : p.baseOffset.x =
      p.baseMask.x + p.baseMask.width / 2 -
        (p.cropOffset.x + p.videoSize.width / 2) * actualScale p := by
    rw [hS, hcx]; unfold maskCenterX; ring
  have hcy' : p.baseOffset.y =
      p.baseMask.y + p.baseMask.height / 2 -
        (p.cropOffset.y + p.videoSize.height / 2) * actualScale p := by
    rw [hS, hcy]; unfold maskCenterY; ring
  have hlex : minVideoX p ≤ maxVideoX p →
      minVideoX p ≤ p.baseOffset.x ∧ p.baseOffset.x ≤ maxVideoX p := by
    intro hle
    exact centered_in_bounds hcx'
      (show p.baseMask.x + p.baseMask.width -
          (p.cropOffset.x + p.videoSize.width) * actualScale p ≤
          p.baseMask.x - p.cropOffset.x * actualScale p from hle)
  have hley : minVideoY p ≤ maxVideoY p →
      minVideoY p ≤ p.baseOffset.y ∧ p.baseOffset.y ≤ maxVideoY p := by
    intro hle
    exact centered_in_bounds hcy'
      (show p.baseMask.y + p.baseMask.height -
          (p.cropOffset.y + p.videoSize.height) * actualScale p ≤
          p.baseMask.y - p.cropOffset.y * actualScale p from hle)
  have hpx : clampedVideoX p = p.baseOffset.x := by
    unfold clampedVideoX
    rw [hx0]
    exact clamp_fixed (fun hle => (hlex hle).1) (fun hle => (hlex hle).2)
  have hpy : clampedVideoY p = p.baseOffset.y := by
    unfold clampedVideoY
    rw [hy0]
    exact clamp_fixed (fun hle => (hley hle).1) (fun hle => (hley hle).2)
  refine ⟨hpx, hpy, ?_, ?_⟩
  · show videoCenterX p (clampedVideoX p) = maskCenterX p
    unfold videoCenterX
    rw [hpx, hS, hcx]
    unfold maskCenterX
    ring
  · show videoCenterY p (clampedVideoY p) = maskCenterY p
    unfold videoCenterY
    rw [hpy, hS, hcy]
    unfold maskCenterY
    ring

theorem zoom_identity_centered_witness :
    effCentered.posX = pCentered.baseOffset.x ∧
    effCentered.posY = pCentered.baseOffset.y ∧
    videoCenterX pCentered effCentered.posX = maskCenterX pCentered ∧
    videoCenterY pCentered effCentered.posY = maskCenterY pCentered :=
  zoom_identity_centered pCentered effCentered
    (by norm_num [NondegenerateSpec, pCentered])
    (by norm_num [pCentered]) (by norm_num [pCentered]) (by norm_num [pCentered])
    (by norm_num [maskCenterX, pCentered]) (by norm_num [maskCenterY, pCentered])
    applyZoom_pCentered

/-- Counterexample geometry for C9 as stated: valid, zoomScale 1, centered
focus, but a baseline offset that does not center the video. -/
def pOffCenter : TransformParams :=
  { pCentered with baseOffset := { x := 10, y := 0 } }

theorem zoom_identity_counterexample :
    NondegenerateSpec pOffCenter ∧ pOffCenter.zoomScale = 1 ∧
    pOffCenter.focusX = 1 / 2 ∧ pOffCenter.focusY = 1 / 2 ∧
    (applyZoomTransform pOffCenter).map (fun e => videoCenterX pOffCenter e.posX) =
      some 100 ∧
    maskCenterX pOffCenter = 50 := by
  refine ⟨by norm_num [NondegenerateSpec, pOffCenter, pCentered],
    by norm_num [pOffCenter, pCentered], by norm_num [pOffCenter, pCentered],
    by norm_num [pOffCenter, pCentered], ?_,
    by norm_num [maskCenterX, pOffCenter, pCentered]⟩
  rw [applyZoomTransform_eq_some pOffCenter
    (by norm_num [NondegenerateSpec, pOffCenter, pCentered])]
  norm_num [videoCenterX, actualScale, clampedVideoX, newVideoX0, focusInVideoSpaceX,
    focusStagePxX, stageCenterX, minVideoX, maxVideoX, cropEndX, min_def, max_def,
    pOffCenter, pCentered]

def cfg0 : ExportCfg := { width := 1280, height := 720, codec := none }

/-- C1: for every export run and every point in the frame loop, the
in-flight encode counter never exceeds MAX_ENCODE_QUEUE: the orchestrator
waits (yielding) while the counter is at or above the bound and only then
increments it and submits. -/
theorem encode_queue_bounded (cfg : ExportCfg) (t : Nat) (s : ExporterState)
    (h : Reachable cfg (initExporter t) s) : s.encodeQueue ≤ MAX_ENCODE_QUEUE :=
  (reachable_minv (minv_init t) h).2.1

/-- One frame submitted and still in flight (3-frame run). -/
def sC1 : ExporterState :=
  { initExporter 3 with
    encodeQueue := 1, pending := 1, frameIndex := 1, submitted := 1, progressed := 1 }

theorem encode_queue_bounded_witness : sC1.encodeQueue ≤ MAX_ENCODE_QUEUE :=
  encode_queue_bounded cfg0 3 sC1
    (runEv_reachable cfg0 (initExporter 3) [Event.enterLoop, Event.submitStep] sC1
      (by decide))

/-- C2 (amended): the encoder error callback only logs: the exporter state
is unchanged, so the in-flight counter is NOT decremented on the error
path and the export is not aborted; the counter is decremented exactly
once per emitted chunk, by the output callback alone. -/
theorem encode_error_logged_only (cfg : ExportCfg) (s s' : ExporterState) (m : EncoderMeta) :
    (stepF cfg Event.encodeError s = some s' → s' = s) ∧
    (stepF cfg (Event.emit m) s = some s' → s'.encodeQueue = s.encodeQueue - 1) := by
  constructor
  · intro hs
    simp only [stepF, Option.some.injEq] at hs
    exact hs.symm
  · intro hs
    simp only [stepF] at hs
    split at hs
    · cases hs
      rfl
    · cases hs

/-- State after the emission of the chunk submitted in `sC1` (the callback
meta carries no decoder configuration). -/
def sAfterEmit : ExporterState :=
  { sC1 with
    encodeQueue := 0
    pending := 0
    chunkCount := 1
    muxRecords := [MuxChunkMeta.fwd none]
    pendingMux := 1 }

theorem encode_error_logged_only_witness :
    initExporter 2 = initExporter 2 ∧ sAfterEmit.encodeQueue = sC1.encodeQueue - 1 :=
  ⟨(encode_error_logged_only cfg0 (initExporter 2) (initExporter 2) none).1 rfl,
   (encode_error_logged_only cfg0 sC1 sAfterEmit none).2 (by decide)⟩

/-- Counterexample for C2 as stated: after one submission the counter is 1;
the error callback fires for that submission and the counter is still 1 —
it is not decremented on the error path. -/
theorem encode_error_counterexample :
    (runEv cfg0 [Event.enterLoop, Event.submitStep] (initExporter 1)).map
        (fun s => s.encodeQueue) = some 1 ∧
    (runEv cfg0 [Event.enterLoop, Event.submitStep, Event.encodeError]
        (initExporter 1)).map (fun s => s.encodeQueue) = some 1 := by
  decide

/-- C3 (amended): cancel() sets the cancellation flag and eagerly runs
cleanup (closing the encoder and resetting the counters); the flag is
checked by the backpressure wait and at the top of every loop iteration,
where a pending cancellation terminates the loop with the fixed
cancellation result; after a cancellation no further encode submission
starts. -/
theorem cancel_cooperative (cfg : ExportCfg) (t : Nat) (s s' : ExporterState) :
    (stepF cfg Event.cancelReq s = some s' →
      s'.cancelled = true ∧ s'.encoderConfigured = false) ∧
    (s.cancelled = true → stepF cfg Event.spinWait s = none) ∧
    (s.pc = PC.top → s.cancelled = true → stepF cfg Event.enterLoop s = some s' →
      s'.pc = PC.finished ∧ s'.result = some cancelledResult) ∧
    (Reachable cfg (initExporter t) s → s.cancelled = true →
      stepF cfg Event.submitStep s = some s' → s'.submitted = s.submitted) := by
  refine ⟨?_, ?_, ?_, ?_⟩
  · intro hs
    simp only [stepF, Option.some.injEq] at hs
    cases hs
    exact ⟨rfl, rfl⟩
  · intro hc
    simp only [stepF]
    rw [if_neg (by simp [hc])]
  · intro hpc hc hs
    simp only [stepF] at hs
    rw [if_pos hpc, if_neg (by simp [hc]), if_pos hc] at hs
    cases hs
    exact ⟨rfl, rfl⟩
  · intro hr hc hs
    have hconf := (reachable_minv (minv_init t) hr).1 hc
    simp only [stepF] at hs
    split at hs
    · rw [if_neg (by simp [hconf])] at hs
      cases hs
      rfl
    · cases hs

/-- A cancelled state at the loop top (4-frame run, flag set, encoder
already closed by the eager cleanup). -/
def sCanc : ExporterState :=
  { initExporter 4 with cancelled := true, encoderConfigured := false }

def sCancDone : ExporterState :=
  { sCanc with pc := PC.finished, result := some cancelledResult }

theorem cancel_cooperative_witness :
    stepF cfg0 Event.spinWait sCanc = none ∧
    (sCancDone.pc = PC.finished ∧ sCancDone.result = some cancelledResult) :=
  ⟨(cancel_cooperative cfg0 4 sCanc sCancDone).2.1 rfl,
   (cancel_cooperative cfg0 4 sCanc sCancDone).2.2.1 rfl rfl (by decide)⟩

/-- Five frames in flight, then cancel(). -/
def traceFive : List Event :=
  [Event.enterLoop, Event.submitStep, Event.enterLoop, Event.submitStep,
   Event.enterLoop, Event.submitStep, Event.enterLoop, Event.submitStep,
   Event.enterLoop, Event.submitStep]

/-- Counterexample for C3 as stated ("cancel() only sets a flag"): after
five submissions the counter is 5 and the encoder is configured; the
cancel() request flips the flag AND closes the encoder and resets the
in-flight counter — the eager cleanup does more than set a flag. -/
theorem cancel_counterexample :
    (runEv cfg0 traceFive (initExporter 9)).map
        (fun s => (s.encodeQueue, s.encoderConfigured)) = some (5, true) ∧
    (runEv cfg0 (traceFive ++ [Event.cancelReq]) (initExporter 9)).map
        (fun s => (s.encodeQueue, s.encoderConfigured, s.cancelled)) =
      some (0, false, true) := by
  decide

/-- C4: finalize() runs at most once; it is invoked only with every
outstanding muxing promise settled and the encoder drained (flushed) or
closed; on the successful path it has run exactly once. -/
theorem finalize_once_after_drain (cfg : ExportCfg) (t : Nat) (s : ExporterState)
    (h : Reachable cfg (initExporter t) s) :
    s.finalizeCount ≤ 1 ∧
    (s.pc = PC.finalizing →
      s.pendingMux = 0 ∧ (s.encoderConfigured = false ∨ s.pending = 0)) ∧
    (s.result = some successResult → s.finalizeCount = 1) := by
  obtain ⟨h1, h2, h3, h4, h5, h6, h7⟩ := reachable_minv (minv_init t) h
  exact ⟨h3, fun hpc => ⟨h7 hpc, h6 (Or.inr hpc)⟩, h5⟩

/-- An emission whose metadata carries description bytes. -/
def emitOne : EncoderMeta := some { description := some [1], colorSpace := none }

/-- A complete successful 1-frame export run. -/
def traceDone : List Event :=
  [Event.enterLoop, Event.submitStep, Event.emit emitOne, Event.muxSettle,
   Event.enterLoop, Event.flushDone, Event.drainDone, Event.finalizeDone]

def sDone : ExporterState :=
  { pc := PC.finished, cancelled := false, encoderConfigured := true,
    encodeQueue := 0, pending := 0, chunkCount := 1,
    videoDescription := some [1], videoColorSpace := none,
    muxRecords := [MuxChunkMeta.synth
      { codec := "avc1.64001f", codedWidth := 1280, codedHeight := 720,
        description := [1], colorSpace := defaultColorSpace }],
    pendingMux := 0, frameIndex := 1, totalFrames := 1,
    submitted := 1, progressed := 1, finalizeCount := 1, result := some successResult }

theorem finalize_once_after_drain_witness :
    sDone.finalizeCount ≤ 1 ∧
    (sDone.pc = PC.finalizing →
      sDone.pendingMux = 0 ∧ (sDone.encoderConfigured = false ∨ sDone.pending = 0)) ∧
    (sDone.result = some successResult → sDone.finalizeCount = 1) :=
  finalize_once_after_drain cfg0 1 sDone
    (runEv_reachable cfg0 (initExporter 1) traceDone sDone (by decide))

/-- Run in which the encoder closes after the first of two frames: the
second frame is dropped, yet the export finishes successfully. -/
def traceDropped : List Event :=
  [Event.enterLoop, Event.submitStep, Event.emit emitOne, Event.muxSettle,
   Event.encoderClosed, Event.enterLoop, Event.submitStep, Event.enterLoop,
   Event.flushDone, Event.drainDone, Event.finalizeDone]

/-- C10: when the encoder is null or not configured at submission time the
composited frame is silently dropped: nothing is submitted, the in-flight
counter is not incremented, no error is raised, and progress is still
reported — so an export can report success with fewer encoded frames than
totalFrames (second conjunct: a 2-frame run ends successfully with 1
submission and 1 chunk). -/
theorem unconfigured_submit_drops_frame (cfg : ExportCfg) (s s' : ExporterState) :
    (s.encoderConfigured = false → stepF cfg Event.submitStep s = some s' →
      s'.encodeQueue = s.encodeQueue ∧ s'.submitted = s.submitted ∧
      s'.pending = s.pending ∧ s'.frameIndex = s.frameIndex + 1 ∧
      s'.progressed = s.progressed + 1 ∧ s'.result = s.result) ∧
    (runEv cfg0 traceDropped (initExporter 2)).map
        (fun f => (f.result, f.submitted, f.chunkCount, f.progressed, f.totalFrames)) =
      some (some successResult, 1, 1, 2, 2) := by
  constructor
  · intro hconf hs
    simp only [stepF] at hs
    split at hs
    · rw [if_neg (by simp [hconf])] at hs
      cases hs
      exact ⟨rfl, rfl, rfl, rfl, rfl, rfl⟩
    · cases hs
  · decide

/-- A frame ready for submission while the encoder is not configured, and
the state after the drop. -/
def sDropReady : ExporterState :=
  { initExporter 2 with pc := PC.ready, encoderConfigured := false }

def sDropped : ExporterState :=
  { initExporter 2 with encoderConfigured := false, frameIndex := 1, progressed := 1 }

theorem unconfigured_submit_drops_frame_witness :
    sDropped.encodeQueue = sDropReady.encodeQueue ∧
    sDropped.submitted = sDropReady.submitted ∧
    sDropped.pending = sDropReady.pending ∧
    sDropped.frameIndex = sDropReady.frameIndex + 1 ∧
    sDropped.progressed = sDropReady.progressed + 1 ∧
    sDropped.result = sDropReady.result :=
  (unconfigured_submit_drops_frame cfg0 sDropReady sDropped).1 rfl (by decide)

/-- C8 (amended): the decoder configuration is synthesized and attached
only to the first chunk (when a description was captured from it), its
color space being the encoder-captured one when present with the fixed
bt709/iec61966-2-1/rgb/fullRange tags only as a fallback; every later
chunk is forwarded to the muxer with the encoder-supplied metadata
unchanged. -/
theorem first_chunk_metadata (cfg : ExportCfg) (t : Nat) (m0 : EncoderMeta)
    (rest : List EncoderMeta) :
    (processEmissions cfg (m0 :: rest) (initExporter t)).muxRecords =
      firstChunkRecord cfg m0 :: rest.map MuxChunkMeta.fwd := by
  have hfirst : (outputCallback cfg m0 (initExporter t)).muxRecords =
      [firstChunkRecord cfg m0] := by
    cases m0 with
    | none => simp [outputCallback, firstChunkRecord, initExporter, captureOnce]
    | some mc =>
        cases hd : mc.description with
        | none =>
            simp [outputCallback, firstChunkRecord, initExporter, captureOnce, hd]
        | some d =>
            simp [outputCallback, firstChunkRecord, initExporter, captureOnce, hd]
  have hone : (outputCallback cfg m0 (initExporter t)).chunkCount ≠ 0 := by
    simp [outputCallback, initExporter]
  have hrest := processEmissions_not_first cfg rest
    (outputCallback cfg m0 (initExporter t)) hone
  have hstep : processEmissions cfg (m0 :: rest) (initExporter t) =
      processEmissions cfg rest (outputCallback cfg m0 (initExporter t)) := by
    simp [processEmissions]
  rw [hstep, hrest, hfirst]
  simp

/-- A bt601-flavored color space reported by the encoder. -/
def cs601 : ColorSpaceInit :=
  { primaries := "bt601", transfer := "bt709", matrix := "bt709", fullRange := false }

/-- Two emissions: the first with description and encoder color space, the
second whose metadata itself contains a decoder configuration. -/
def emsCx : List EncoderMeta :=
  [some { description := some [1, 2, 3], colorSpace := some cs601 },
   some { description := some [9], colorSpace := none }]

/-- Counterexample for C8 as stated: when the encoder reports a color space
(here bt601-flavored) the synthesized first-chunk configuration carries it,
not the fixed bt709 tag set; and the second chunk is forwarded with encoder
metadata that itself contains a decoder configuration, so later chunks are
not guaranteed to carry none. -/
theorem first_chunk_metadata_counterexample :
    (processEmissions cfg0 emsCx (initExporter 0)).muxRecords =
      [MuxChunkMeta.synth
        { codec := "avc1.64001f", codedWidth := 1280, codedHeight := 720,
          description := [1, 2, 3], colorSpace := cs601 },
       MuxChunkMeta.fwd (some { description := some [9], colorSpace := none })] ∧
    cs601 ≠ defaultColorSpace ∧
    carriesDecoderConfig
      (MuxChunkMeta.fwd (some { description := some [9], colorSpace := none })) =
        true := by
  decide
